import Mathlib

/-!
Verification of the node virtual machine and line parser of a TIS-100-style
grid interpreter. The definitions below are a shallow embedding of the Rust
source (`src/main.rs`): `Node`, `Instruction`, `Port`, `Node.run_instruction`
(with the `step!` and `jump_label!` macros expanded as `Node.step` and
`Node.jump_label`), `Port.parse`, and `Node.parse`. Rust `isize` registers are
modelled as `Int` (the spec allows the unbounded choice), `usize` program
counters as `Nat`. Code that panics in Rust (`todo!()` arms, out-of-bounds
`Vec` indexing) is modelled by returning `none`; fallible parsing returns
`Except`. String handling (lowercasing, whitespace splitting, prefix and
membership tests) is modelled on the character list, which agrees with the
Rust byte-level operations on the ASCII inputs the interpreter deals with.
-/

namespace TIS

/-- Port operands, mirroring `enum Port` in the source. -/
inductive Port where
  | Acc
  | Left
  | Right
  | Up
  | Down
  | Any
  | Last
  | Nil
  | Value (n : Int)
deriving DecidableEq, Repr

/-- Instructions, mirroring `enum Instruction` in the source. Labels are the
strings wrapped by the `Label` newtype. -/
inductive Instruction where
  | Nop
  | Swp
  | Sav
  | Neg
  | Comment (text : String)
  | CreateLabel (label : String)
  | Jmp (label : String)
  | Jez (label : String)
  | Jnz (label : String)
  | Jgz (label : String)
  | Jlz (label : String)
  | Jro (port : Port)
  | Add (port : Port)
  | Sub (port : Port)
  | Mov (src : Port) (dst : Port)
deriving DecidableEq, Repr

/-- One grid cell's machine state, mirroring `struct Node`. -/
structure Node where
  acc : Int
  bak : Int
  pc : Nat
  label_positions : List (String × Nat)
  instructions : List Instruction
deriving DecidableEq, Repr

/-- The `step!` macro: increment the program counter, resetting it to zero
when it exceeds (`>`, not `>=`) the instruction count. -/
def Node.step (self : Node) : Node :=
  if self.pc + 1 > self.instructions.length then
    { self with pc := 0 }
  else
    { self with pc := self.pc + 1 }

/-- The `jump_label!` macro: look for the label's position in the
`label_positions` vector; on a hit the program counter is set to that
position (the index into the vector), otherwise fall back to `step!`. -/
def Node.jump_label (self : Node) (label : String) : Node :=
  match self.label_positions.findIdx? (fun x => x.fst == label) with
  | some position => { self with pc := position }
  | none => self.step

/-- `Node::run_instruction`: fetch the instruction at `pc` (a no-op when out
of range) and execute it. The `todo!()` arms (`Jro`, `Add`, `Sub`, `Mov`)
panic in the source and are modelled as `none`. -/
def Node.run_instruction (self : Node) : Option Node :=
  match self.instructions.get? self.pc with
  | none => some self
  | some instruction =>
    match instruction with
    | Instruction.Swp => some ({ self with acc := self.bak, bak := self.acc }).step
    | Instruction.Sav => some ({ self with bak := self.acc }).step
    | Instruction.Neg =>
        some ((if self.acc < 0 then { self with acc := self.acc - 1 } else self)).step
    | Instruction.CreateLabel label =>
        some ((if self.label_positions.all (fun x => x.fst != label) then
          { self with label_positions := self.label_positions ++ [(label, self.pc)] }
        else
          self)).step
    | Instruction.Jmp label => some (self.jump_label label)
    | Instruction.Jez label =>
        some (if self.acc = 0 then self.jump_label label else self.step)
    | Instruction.Jnz label =>
        some (if self.acc ≠ 0 then self.jump_label label else self.step)
    | Instruction.Jgz label =>
        some (if self.acc > 0 then self.jump_label label else self.step)
    | Instruction.Jlz label =>
        some (if self.acc ≤ 0 then self.jump_label label else self.step)
    | Instruction.Jro _ => none
    | Instruction.Add _ => none
    | Instruction.Sub _ => none
    | Instruction.Mov _ _ => none
    | _ => some self.step

/-- Iterate `run_instruction` a given number of times, propagating a panic. -/
def Node.runN : Nat → Node → Option Node
  | 0, n => some n
  | k + 1, n =>
    match n.run_instruction with
    | some m => Node.runN k m
    | none => none

/-- Decimal value of a digit list, as accumulated by `str::parse`. -/
def natOfDigits (cs : List Char) : Nat :=
  cs.foldl (fun a c => a * 10 + (c.toNat - 48)) 0

/-- Rust `str::parse::<isize>`: an optional sign followed by at least one
ASCII digit. Overflow is not modelled (registers are unbounded `Int`). -/
def parseIsize (s : String) : Option Int :=
  match s.toList with
  | [] => none
  | c :: rest =>
    if c == '+' then
      if rest.isEmpty || !(rest.all Char.isDigit) then none
      else some (Int.ofNat (natOfDigits rest))
    else if c == '-' then
      if rest.isEmpty || !(rest.all Char.isDigit) then none
      else some (-(Int.ofNat (natOfDigits rest)))
    else
      if (c :: rest).all Char.isDigit then some (Int.ofNat (natOfDigits (c :: rest)))
      else none

/-- `Port::parse`: the eight keywords, otherwise an integer literal. -/
def Port.parse (token : String) : Except String Port :=
  match token with
  | "acc" => Except.ok Port.Acc
  | "nil" => Except.ok Port.Nil
  | "left" => Except.ok Port.Left
  | "right" => Except.ok Port.Right
  | "up" => Except.ok Port.Up
  | "down" => Except.ok Port.Down
  | "any" => Except.ok Port.Any
  | "last" => Except.ok Port.Last
  | value =>
    match parseIsize value with
    | some number => Except.ok (Port.Value number)
    | none => Except.error (String.append ("Failed to parse token ") token)

/-- Remove every trailing occurrence of `c`, as `trim_end_matches` does. -/
def trimEndMatches (c : Char) (s : String) : String :=
  String.mk ((s.toList.reverse.dropWhile (fun x => x == c)).reverse)

/-- Whether the line starts with the comment character, as `starts_with("#")`. -/
def startsWithHash (line : String) : Bool :=
  match line.toList with
  | c :: _ => c == '#'
  | [] => false

/-- Whether the line contains a colon anywhere, as `line.contains(':')`. -/
def containsColon (line : String) : Bool :=
  line.toList.any (fun c => c == ':')

/-- Drop the leading character, as the byte slice `line[1..]` does on ASCII. -/
def dropFirst (line : String) : String :=
  String.mk (line.toList.drop 1)

/-- Group the non-whitespace runs of a character list, in order. -/
def splitWsGroups (cs : List Char) : List (List Char) :=
  cs.foldr (fun c acc =>
    if c.isWhitespace then
      [] :: acc
    else
      match acc with
      | [] => [[c]]
      | w :: ws => (c :: w) :: ws) []

/-- The lowercased whitespace-separated words of a line, mirroring
`line.to_lowercase().split_whitespace()` as computed by the shell before it
calls `Node::parse`. -/
def wordsOf (line : String) : List String :=
  ((splitWsGroups (line.toList.map Char.toLower)).filter (fun g => !g.isEmpty)).map String.mk

/-- The `jump!` macro arms of `Node::parse` (`jmp`/`jez`/`jnz`/`jgz`/`jlz`):
index `words[1]` (a panic, `none`, when absent) and append the jump. -/
def jumpArm (self : Node) (words : List String) (mk : String → Instruction) :
    Option (Except String (List Instruction)) :=
  match words.get? 1 with
  | none => none
  | some w1 => some (Except.ok (self.instructions ++ [mk w1]))

/-- The `jro`/`add`/`sub` arms of `Node::parse`: index `words[1]` (a panic,
`none`, when absent), parse it as a port, and append the instruction. -/
def portArm (self : Node) (words : List String) (mk : Port → Instruction) :
    Option (Except String (List Instruction)) :=
  match words.get? 1 with
  | none => none
  | some w1 =>
    match Port.parse w1 with
    | Except.error e => some (Except.error e)
    | Except.ok p => some (Except.ok (self.instructions ++ [mk p]))

/-- The `mov` arm of `Node::parse`: parse `words[1]` (with trailing commas
stripped) and `words[2]` as ports, in that order, panicking (`none`) on a
missing word and propagating port parse errors. -/
def movArm (self : Node) (words : List String) :
    Option (Except String (List Instruction)) :=
  match words.get? 1 with
  | none => none
  | some w1 =>
    match Port.parse (trimEndMatches ',' w1) with
    | Except.error e => some (Except.error e)
    | Except.ok first =>
      match words.get? 2 with
      | none => none
      | some w2 =>
        match Port.parse w2 with
        | Except.error e => some (Except.error e)
        | Except.ok second =>
          some (Except.ok (self.instructions ++ [Instruction.Mov first second]))

/-- `Node::parse`: comment lines and label lines are recognized first; the
remaining lines dispatch on `words[0]` (a panic, `none`, when `words` is
empty). The result is the node's new instruction list on success, the error
text on failure, or `none` where the Rust code panics. -/
def Node.parse (self : Node) (line : String) (words : List String) :
    Option (Except String (List Instruction)) :=
  if startsWithHash line then
    some (Except.ok (self.instructions ++ [Instruction.Comment (dropFirst line)]))
  else if containsColon line then
    some (Except.ok (self.instructions ++ [Instruction.CreateLabel (trimEndMatches ':' line)]))
  else
    match words.get? 0 with
    | none => none
    | some w0 =>
      if w0 == "nop" then some (Except.ok self.instructions)
      else if w0 == "mov" then movArm self words
      else if w0 == "swp" then some (Except.ok (self.instructions ++ [Instruction.Swp]))
      else if w0 == "sav" then some (Except.ok (self.instructions ++ [Instruction.Sav]))
      else if w0 == "neg" then some (Except.ok (self.instructions ++ [Instruction.Neg]))
      else if w0 == "jmp" then jumpArm self words Instruction.Jmp
      else if w0 == "jez" then jumpArm self words Instruction.Jez
      else if w0 == "jnz" then jumpArm self words Instruction.Jnz
      else if w0 == "jgz" then jumpArm self words Instruction.Jgz
      else if w0 == "jlz" then jumpArm self words Instruction.Jlz
      else if w0 == "jro" then portArm self words Instruction.Jro
      else if w0 == "add" then portArm self words Instruction.Add
      else if w0 == "sub" then portArm self words Instruction.Sub
      else if w0 == "pop" then some (Except.ok self.instructions.dropLast)
      else some (Except.error (String.append (String.append ("Failed to read `") line) ("`")))

/-- Keys of a label table are pairwise distinct. -/
def keysUnique (ls : List (String × Nat)) : Prop :=
  (ls.map Prod.fst).Nodup

/-- A node holding the single non-jump instruction `Sav`, at pc 0. -/
def nodeA : Node :=
  { acc := 0, bak := 0, pc := 0, label_positions := [], instructions := [Instruction.Sav] }

/-- A node that declares label `a` at index 1 and then jumps to it. -/
def nodeB : Node :=
  { acc := 0, bak := 0, pc := 0, label_positions := [],
    instructions := [Instruction.Nop, Instruction.CreateLabel ("a"), Instruction.Jmp ("a")] }

/-- A node with an empty instruction list, for parser tests. -/
def nodeEmpty : Node :=
  { acc := 0, bak := 0, pc := 0, label_positions := [], instructions := [] }

/-- A node with one instruction, for the `pop` parser test. -/
def nodePop : Node :=
  { acc := 0, bak := 0, pc := 0, label_positions := [], instructions := [Instruction.Swp] }

/-- A node about to execute `Add` on an immediate operand. -/
def nodeAddI : Node :=
  { acc := 7, bak := 0, pc := 0, label_positions := [],
    instructions := [Instruction.Add (Port.Value 5)] }

/-- A node about to execute `Sub` on an immediate operand. -/
def nodeSubI : Node :=
  { acc := 7, bak := 0, pc := 0, label_positions := [],
    instructions := [Instruction.Sub (Port.Value 5)] }

/-- A node with accumulator `a` about to execute `Jgz` to a resolved label
whose table position (0) differs from the fall-through pc (1). -/
def nodeJgz (a : Int) : Node :=
  { acc := a, bak := 0, pc := 0, label_positions := [(("t" : String), 0)],
    instructions := [Instruction.Jgz ("t"), Instruction.Nop] }

/-- Same as `nodeJgz` but executing `Jlz`. -/
def nodeJlz (a : Int) : Node :=
  { acc := a, bak := 0, pc := 0, label_positions := [(("t" : String), 0)],
    instructions := [Instruction.Jlz ("t"), Instruction.Nop] }

/-- A node about to execute `CreateLabel` for a fresh name. -/
def nodeC7 : Node :=
  { acc := 0, bak := 0, pc := 0, label_positions := [],
    instructions := [Instruction.CreateLabel ("a")] }

/-- A node about to execute `Jmp` to a label that was never declared. -/
def nodeC8 : Node :=
  { acc := 0, bak := 0, pc := 0, label_positions := [], instructions := [Instruction.Jmp ("x")] }

/-- A node with a negative accumulator about to execute `Neg`. -/
def nodeC9 : Node :=
  { acc := -3, bak := 5, pc := 0, label_positions := [], instructions := [Instruction.Neg] }

/-- A node whose program counter is past the end of its instruction list. -/
def nodeC10 : Node :=
  { acc := 1, bak := 2, pc := 3, label_positions := [], instructions := [] }

/-- Fetching an instruction succeeds only at an in-range program counter. -/
theorem fetch_lt {n : Node} {i : Instruction}
    (h : n.instructions.get? n.pc = some i) : n.pc < n.instructions.length := by
  by_contra hc
  rw [List.get?_eq_none.mpr (by omega)] at h
  cases h

/-- Below the instruction count, `step!` increments the program counter. -/
theorem step_pc_succ {n : Node} (h : n.pc < n.instructions.length) :
    n.step = { n with pc := n.pc + 1 } := by
  unfold Node.step
  rw [if_neg (by omega : ¬ n.pc + 1 > n.instructions.length)]

/-- `step!` only touches the program counter: the accumulator is preserved. -/
theorem step_acc (n : Node) : n.step.acc = n.acc := by
  unfold Node.step
  split <;> rfl

/-- `step!` only touches the program counter: the backup is preserved. -/
theorem step_bak (n : Node) : n.step.bak = n.bak := by
  unfold Node.step
  split <;> rfl

/-- `step!` only touches the program counter: the label table is preserved. -/
theorem step_labels (n : Node) : n.step.label_positions = n.label_positions := by
  unfold Node.step
  split <;> rfl

/-- The freshness test of the `CreateLabel` arm, as key non-membership. -/
theorem all_ne_iff (lp : List (String × Nat)) (l : String) :
    lp.all (fun x => x.fst != l) = true ↔ l ∉ lp.map Prod.fst := by
  simp [List.all_eq_true, List.mem_map]
  constructor
  · rintro h x hx
    exact h l x hx rfl
  · rintro h a b hab e
    subst e
    exact h b hab

/-- Claim C1: executing `run_instruction` N times from program counter 0 over
a non-empty jump-free instruction list of length N should return the program
counter to 0, keeping it an in-range index after every step. The code refutes
this: on the one-instruction program `[Sav]` a single step leaves the program
counter at 1, which equals the list length (out of range, not 0), because the
`step!` wrap test uses `pc > len` rather than `pc >= len`. -/
theorem claim1_pc_leaves_range :
    Node.runN nodeA.instructions.length nodeA = some { nodeA with pc := 1 } ∧
    (Node.runN nodeA.instructions.length nodeA).map Node.pc =
      some nodeA.instructions.length ∧
    nodeA.instructions.length = 1 := by
  decide

/-- Claim C2: a jump to a label already declared by its executed
`CreateLabel` should set the program counter to the instruction index that
was recorded for the label. The code refutes this: on
`[Nop, CreateLabel a, Jmp a]` the label is recorded with index 1, yet the
jump sets the program counter to 0, the label's position inside the
`label_positions` vector, ignoring the recorded index. -/
theorem claim2_jump_uses_table_position :
    Node.runN 3 nodeB =
      some { nodeB with pc := 0, label_positions := [(("a" : String), 1)] } := by
  decide

/-- Claim C3: a successful parse of a trimmed, non-empty line should append
exactly one instruction, and never remove any. The code refutes this: the
line `nop` succeeds while appending nothing (its arm pushes no instruction),
and the line `pop` succeeds while removing the last instruction. -/
theorem claim3_parse_success_without_append :
    Node.parse nodeEmpty ("nop") (wordsOf ("nop")) = some (Except.ok nodeEmpty.instructions) ∧
    Node.parse nodePop ("pop") (wordsOf ("pop")) = some (Except.ok []) :=
  ⟨rfl, rfl⟩

/-- Claim C4: a line whose opcode is missing required operands should fail
with a descriptive error. The code refutes this: `jmp`, `add` and `mov acc`
index `words[1]` or `words[2]` out of bounds and panic (modelled `none`)
instead of returning an error. -/
theorem claim4_missing_operand_is_panic :
    Node.parse nodeEmpty ("jmp") (wordsOf ("jmp")) = none ∧
    Node.parse nodeEmpty ("add") (wordsOf ("add")) = none ∧
    Node.parse nodeEmpty ("mov acc") (wordsOf ("mov acc")) = none :=
  ⟨rfl, rfl, rfl⟩

/-- Claim C5: an `Add`/`Sub` step on an `Immediate` port should complete and
change the accumulator by the literal. The code refutes this: both arms of
`run_instruction` are `todo!()` and panic (modelled `none`). -/
theorem claim5_add_sub_panic :
    nodeAddI.run_instruction = none ∧ nodeSubI.run_instruction = none :=
  ⟨rfl, rfl⟩

/-- Executing the `Jgz` of `nodeJgz` reduces to the guarded jump. -/
theorem nodeJgz_run (a : Int) :
    (nodeJgz a).run_instruction =
      some (if a > 0 then (nodeJgz a).jump_label ("t") else (nodeJgz a).step) := rfl

/-- Executing the `Jlz` of `nodeJlz` reduces to the guarded jump. -/
theorem nodeJlz_run (a : Int) :
    (nodeJlz a).run_instruction =
      some (if a ≤ 0 then (nodeJlz a).jump_label ("t") else (nodeJlz a).step) := rfl

/-- The resolved jump of `nodeJgz` lands on table position 0. -/
theorem nodeJgz_jump (a : Int) :
    (nodeJgz a).jump_label ("t") = { nodeJgz a with pc := 0 } := rfl

/-- The fall-through step of `nodeJgz` lands on program counter 1. -/
theorem nodeJgz_step (a : Int) : (nodeJgz a).step = { nodeJgz a with pc := 1 } := rfl

/-- The resolved jump of `nodeJlz` lands on table position 0. -/
theorem nodeJlz_jump (a : Int) :
    (nodeJlz a).jump_label ("t") = { nodeJlz a with pc := 0 } := rfl

/-- The fall-through step of `nodeJlz` lands on program counter 1. -/
theorem nodeJlz_step (a : Int) : (nodeJlz a).step = { nodeJlz a with pc := 1 } := rfl

/-- Claim C6: for every integer accumulator value, `Jgz` jumps exactly when
the accumulator is positive and `Jlz` jumps exactly when it is at most zero,
so exactly one of the two fires: observing the program counter after one
step, the jump lands on 0 and the fall-through on 1. -/
theorem claim6_jgz_jlz_complementary (a : Int) :
    (((nodeJgz a).run_instruction).map Node.pc = some 0 ↔ a > 0) ∧
    (((nodeJlz a).run_instruction).map Node.pc = some 0 ↔ a ≤ 0) ∧
    (((nodeJgz a).run_instruction).map Node.pc = some 0 ↔
      ¬ ((nodeJlz a).run_instruction).map Node.pc = some 0) := by
  by_cases h : a > 0
  · have h2 : ¬ a ≤ 0 := by omega
    rw [nodeJgz_run, nodeJlz_run, if_pos h, if_neg h2, nodeJgz_jump, nodeJlz_step]
    refine ⟨?_, ?_, ?_⟩ <;> simp [h, h2]
  · have h2 : a ≤ 0 := by omega
    rw [nodeJgz_run, nodeJlz_run, if_neg h, if_pos h2, nodeJgz_step, nodeJlz_jump]
    refine ⟨?_, ?_, ?_⟩ <;> simp [h, h2]

/-- Witness for C6: with accumulator 1 the `Jgz` jump fires. -/
theorem claim6_witness :
    ((nodeJgz 1).run_instruction).map Node.pc = some 0 :=
  ((claim6_jgz_jlz_complementary 1).1).mpr (by norm_num)

/-- Reduction of `run_instruction` at a fetched `Jmp`. -/
theorem run_jmp (n : Node) (l : String)
    (h : n.instructions.get? n.pc = some (Instruction.Jmp l)) :
    n.run_instruction = some (n.jump_label l) := by
  unfold Node.run_instruction
  rw [h]

/-- Reduction of `run_instruction` at a fetched `Jez`. -/
theorem run_jez (n : Node) (l : String)
    (h : n.instructions.get? n.pc = some (Instruction.Jez l)) :
    n.run_instruction = some (if n.acc = 0 then n.jump_label l else n.step) := by
  unfold Node.run_instruction
  rw [h]

/-- Reduction of `run_instruction` at a fetched `Jnz`. -/
theorem run_jnz (n : Node) (l : String)
    (h : n.instructions.get? n.pc = some (Instruction.Jnz l)) :
    n.run_instruction = some (if n.acc ≠ 0 then n.jump_label l else n.step) := by
  unfold Node.run_instruction
  rw [h]

/-- Reduction of `run_instruction` at a fetched `Jgz`. -/
theorem run_jgz (n : Node) (l : String)
    (h : n.instructions.get? n.pc = some (Instruction.Jgz l)) :
    n.run_instruction = some (if n.acc > 0 then n.jump_label l else n.step) := by
  unfold Node.run_instruction
  rw [h]

/-- Reduction of `run_instruction` at a fetched `Jlz`. -/
theorem run_jlz (n : Node) (l : String)
    (h : n.instructions.get? n.pc = some (Instruction.Jlz l)) :
    n.run_instruction = some (if n.acc ≤ 0 then n.jump_label l else n.step) := by
  unfold Node.run_instruction
  rw [h]

/-- Claim C7: executing `CreateLabel` is idempotent. A fresh name is recorded
with the current program counter; a name already present leaves the table
unchanged; and distinctness of the table's keys is preserved, so a label name
maps to at most one program-counter value. -/
theorem claim7_create_label_idempotent (n : Node) (l : String)
    (h : n.instructions.get? n.pc = some (Instruction.CreateLabel l)) :
    (l ∉ n.label_positions.map Prod.fst →
      (n.run_instruction).map Node.label_positions =
        some (n.label_positions ++ [(l, n.pc)])) ∧
    (l ∈ n.label_positions.map Prod.fst →
      (n.run_instruction).map Node.label_positions = some n.label_positions) ∧
    (keysUnique n.label_positions →
      keysUnique (((n.run_instruction).map Node.label_positions).getD [])) := by
  have hrun : n.run_instruction =
      some ((if n.label_positions.all (fun x => x.fst != l) then
        { n with label_positions := n.label_positions ++ [(l, n.pc)] }
      else
        n)).step := by
    unfold Node.run_instruction
    rw [h]
  by_cases hb : n.label_positions.all (fun x => x.fst != l) = true
  · have hmem : l ∉ n.label_positions.map Prod.fst := (all_ne_iff _ _).mp hb
    rw [hrun, if_pos hb]
    refine ⟨fun _ => ?_, fun hc => absurd hc hmem, fun hu => ?_⟩
    · simp [step_labels]
    · simp only [keysUnique] at hu
      simp [step_labels, keysUnique, List.nodup_append, hu]
      intro x hx
      exact hmem (List.mem_map.mpr ⟨(l, x), hx, rfl⟩)
  · have hmem : l ∈ n.label_positions.map Prod.fst := by
      by_contra hc
      exact hb ((all_ne_iff _ _).mpr hc)
    rw [hrun, if_neg hb]
    refine ⟨fun hc => absurd hmem hc, fun _ => ?_, fun hu => ?_⟩
    · simp [step_labels]
    · simpa [step_labels, keysUnique] using hu

/-- Witness for C7: declaring the fresh label `a` at program counter 0
records it with index 0. -/
theorem claim7_witness :
    (nodeC7.run_instruction).map Node.label_positions =
      some (nodeC7.label_positions ++ [(("a" : String), nodeC7.pc)]) :=
  (claim7_create_label_idempotent nodeC7 ("a") (by rfl)).1 (by decide)

/-- Claim C8: a jump instruction (unconditional `Jmp`, or a conditional jump
whose condition holds) to a label absent from the label table does not crash
and advances the program counter by exactly one, leaving every other part of
the node state unchanged. -/
theorem claim8_unresolved_jump_advances_one (n : Node) (l : String)
    (hres : n.label_positions.findIdx? (fun x => x.fst == l) = none)
    (hinst : n.instructions.get? n.pc = some (Instruction.Jmp l) ∨
      (n.instructions.get? n.pc = some (Instruction.Jez l) ∧ n.acc = 0) ∨
      (n.instructions.get? n.pc = some (Instruction.Jnz l) ∧ n.acc ≠ 0) ∨
      (n.instructions.get? n.pc = some (Instruction.Jgz l) ∧ 0 < n.acc) ∨
      (n.instructions.get? n.pc = some (Instruction.Jlz l) ∧ n.acc ≤ 0)) :
    n.run_instruction = some { n with pc := n.pc + 1 } := by
  have hjl : n.jump_label l = n.step := by
    unfold Node.jump_label
    rw [hres]
  rcases hinst with h | ⟨h, hc⟩ | ⟨h, hc⟩ | ⟨h, hc⟩ | ⟨h, hc⟩
  · rw [run_jmp n l h, hjl, step_pc_succ (fetch_lt h)]
  · rw [run_jez n l h, if_pos hc, hjl, step_pc_succ (fetch_lt h)]
  · rw [run_jnz n l h, if_pos hc, hjl, step_pc_succ (fetch_lt h)]
  · rw [run_jgz n l h, if_pos hc, hjl, step_pc_succ (fetch_lt h)]
  · rw [run_jlz n l h, if_pos hc, hjl, step_pc_succ (fetch_lt h)]

/-- Witness for C8: `Jmp` to the never-declared label `x` moves the program
counter from 0 to 1 and changes nothing else. -/
theorem claim8_witness :
    nodeC8.run_instruction = some { nodeC8 with pc := nodeC8.pc + 1 } :=
  claim8_unresolved_jump_advances_one nodeC8 ("x") (by rfl) (Or.inl (by rfl))

/-- Claim C9: `Neg` decrements a strictly negative accumulator by exactly
one, leaves a zero-or-positive accumulator unchanged, and never touches the
backup register. -/
theorem claim9_neg_decrements_only_negative (n : Node)
    (h : n.instructions.get? n.pc = some Instruction.Neg) :
    (n.acc < 0 → (n.run_instruction).map Node.acc = some (n.acc - 1)) ∧
    (0 ≤ n.acc → (n.run_instruction).map Node.acc = some n.acc) ∧
    (n.run_instruction).map Node.bak = some n.bak := by
  have hrun : n.run_instruction =
      some ((if n.acc < 0 then { n with acc := n.acc - 1 } else n)).step := by
    unfold Node.run_instruction
    rw [h]
  by_cases hc : n.acc < 0
  · rw [hrun, if_pos hc]
    refine ⟨fun _ => ?_, fun hge => absurd hc (by omega), ?_⟩ <;> simp [step_acc, step_bak]
  · rw [hrun, if_neg hc]
    refine ⟨fun hlt => absurd hlt hc, fun _ => ?_, ?_⟩ <;> simp [step_acc, step_bak]

/-- Witness for C9: `Neg` on accumulator -3 yields -4. -/
theorem claim9_witness :
    (nodeC9.run_instruction).map Node.acc = some (nodeC9.acc - 1) :=
  (claim9_neg_decrements_only_negative nodeC9 (by rfl)).1 (by decide)

/-- Claim C10: a node whose program counter is at or past the end of its
instruction list (including an empty list) is permanently frozen: one step is
a total no-op, and so is any number of steps. -/
theorem claim10_out_of_range_pc_freezes (n : Node)
    (h : n.instructions.length ≤ n.pc) :
    n.run_instruction = some n ∧ ∀ k, Node.runN k n = some n := by
  have hget : n.instructions.get? n.pc = none := List.get?_eq_none.mpr h
  have h1 : n.run_instruction = some n := by
    unfold Node.run_instruction
    rw [hget]
  refine ⟨h1, fun k => ?_⟩
  induction k with
  | zero => rfl
  | succ k ih =>
    simp only [Node.runN, h1]
    exact ih

/-- Witness for C10: a node with program counter 3 over an empty instruction
list is unchanged by one step and by five steps. -/
theorem claim10_witness :
    nodeC10.run_instruction = some nodeC10 ∧ Node.runN 5 nodeC10 = some nodeC10 :=
  ⟨(claim10_out_of_range_pc_freezes nodeC10 (by decide)).1,
   (claim10_out_of_range_pc_freezes nodeC10 (by decide)).2 5⟩

end TIS
